import Mathlib

/-!
Shallow embedding of the alarm evaluation and deduplication engine of
`oil_gas_service/alarm_processor.py` (class `AlarmProcessor`), together with
the slice of the relational store it manipulates.  Numeric sensor values are
modelled as rationals, timestamps as natural numbers (only their equality and
order matter), and the database tables as lists of records.  Database errors
and Python exceptions are modelled with `Except`.
-/

namespace OilGas

/-- Severity levels used by the processor; the source stores them as the
strings "高危" (high), "中危" (medium) and "低危" (low). -/
inductive Severity where
  | high
  | medium
  | low
deriving DecidableEq

/-- The alarm-type description; the source renders it as the free-text string
高于阈值(bound) (above threshold) or 低于阈值(bound) (below threshold),
recording which bound was crossed and its numeric value. -/
inductive AlarmType where
  | aboveThreshold (bound : ℚ)
  | belowThreshold (bound : ℚ)
deriving DecidableEq

/-- Rendering of `AlarmType` back to the source's f-string text. -/
def alarmTypeText : AlarmType → String
  | AlarmType.aboveThreshold b => "高于阈值(" ++ toString b ++ ")"
  | AlarmType.belowThreshold b => "低于阈值(" ++ toString b ++ ")"

/-- One entry of the threshold dictionary: the optional `"high"` and `"low"`
keys of the per-sensor-type dict. -/
structure ThresholdEntry where
  high : Option ℚ
  low : Option ℚ
deriving DecidableEq

/-- `self.alarm_thresholds` from `AlarmProcessor.__init__` (lines 9-14):
sensor type 1 (temperature) high 60 / low -10, type 2 (pressure) high 8 /
low 1, type 3 (flow) high 80 / low 5, type 4 (vibration) high 400 only. -/
def alarm_thresholds : List (Nat × ThresholdEntry) :=
  [(1, ⟨some 60, some (-10)⟩),
   (2, ⟨some 8, some 1⟩),
   (3, ⟨some 80, some 5⟩),
   (4, ⟨some 400, none⟩)]

/-- `self.alarm_thresholds.get(sensor_type_id, {})` (line 59): dictionary
lookup with the empty dict as default. -/
def thresholdsFor (sensor_type_id : Nat) : ThresholdEntry :=
  match alarm_thresholds.find? (fun p => p.1 == sensor_type_id) with
  | some p => p.2
  | none => ⟨none, none⟩

/-- The raw `measured_value` column as returned by the store: Python applies
`float(...)` to it (line 45), which succeeds on numeric content and raises
`ValueError` on malformed content. -/
inductive RawValue where
  | num (q : ℚ)
  | malformed (s : String)
deriving DecidableEq

/-- `float(data['measured_value'])` (line 45) as a fallible conversion. -/
def floatOf : RawValue → Except String ℚ
  | RawValue.num q => Except.ok q
  | RawValue.malformed s => Except.error ("could not convert string to float: " ++ s)

/-- One abnormal reading row as fetched by the scan query (joined
`sensor_data_record` and `sensor_device`): the fields `_process_abnormal_data`
reads. -/
structure Reading where
  device_id : Nat
  sensor_type_id : Nat
  measured_value : RawValue
  timestamp : Nat
deriving DecidableEq

/-- One row of the `alarm_event` table, with the columns the processor
writes and reads. -/
structure Alarm where
  alarm_id : Nat
  device_id : Nat
  alarm_type : AlarmType
  triggered_timestamp : Nat
  severity_level : Severity
  acknowledgment_status : String
  alarm_message : String
deriving DecidableEq

/-- Acknowledgment status "未处理" (unprocessed), written on insert. -/
def unprocessedStatus : String := "未处理"

/-- Acknowledgment status "已处理" (processed), the default of
`acknowledge_alarm`. -/
def processedStatus : String := "已处理"

/-- The `alarm_event` table plus its auto-increment counter. -/
structure AlarmStore where
  rows : List Alarm
  next_id : Nat
deriving DecidableEq

/-- `AlarmProcessor._create_alarm_event` (lines 80-103): INSERT a new row with
acknowledgment_status "未处理" and a fresh auto-increment id. -/
def _create_alarm_event (st : AlarmStore) (device_id : Nat) (alarm_type : AlarmType)
    (triggered_time : Nat) (severity : Severity) (message : String) : AlarmStore :=
  ⟨st.rows ++ [⟨st.next_id, device_id, alarm_type, triggered_time, severity,
               unprocessedStatus, message⟩],
   st.next_id + 1⟩

/-- The low-bound branch of the threshold logic (lines 66-68): reached only
when the high-bound branch did not trigger.  Returns the pair
(alarm_type, severity); when neither branch of the source assigns them, they
keep their initial values `None` and "低危" (low) from lines 60-61. -/
def decideLow (low : Option ℚ) (value : ℚ) : Option AlarmType × Severity :=
  match low with
  | some l =>
    if value < l then
      (some (AlarmType.belowThreshold l),
        if value < l * 0.8 then Severity.high else Severity.medium)
    else (none, Severity.low)
  | none => (none, Severity.low)

/-- The threshold evaluation of `_process_abnormal_data` (lines 58-68):
high-bound check first (`value > high`, severity 高危 when
`value > high * 1.2` else 中危), otherwise low-bound check
(`value < low`, severity 高危 when `value < low * 0.8` else 中危),
otherwise the initial `alarm_type = None`, `severity = 低危` survive. -/
def decideAlarm (thresholds : ThresholdEntry) (value : ℚ) : Option AlarmType × Severity :=
  match thresholds.high with
  | some h =>
    if value > h then
      (some (AlarmType.aboveThreshold h),
        if value > h * 1.2 then Severity.high else Severity.medium)
    else decideLow thresholds.low value
  | none => decideLow thresholds.low value

/-- The alarm message f-string of line 77, 传感器值异常 (abnormal sensor
value) followed by the measured value and the alarm-type text. -/
def alarmMessage (v : ℚ) (t : AlarmType) : String :=
  "传感器值异常: " ++ toString v ++ ", " ++ alarmTypeText t

/-- `AlarmProcessor._process_abnormal_data` (lines 41-78): convert the
measured value (may raise), dedup-check `alarm_event` on
(device_id, triggered_timestamp), then evaluate thresholds and insert an
alarm when a type was determined. -/
def _process_abnormal_data (st : AlarmStore) (data : Reading) : Except String AlarmStore :=
  match floatOf data.measured_value with
  | Except.error e => Except.error e
  | Except.ok value =>
    let existing := st.rows.filter fun a =>
      a.device_id == data.device_id && a.triggered_timestamp == data.timestamp
    if existing.length > 0 then
      Except.ok st
    else
      match decideAlarm (thresholdsFor data.sensor_type_id) value with
      | (some alarm_type, severity) =>
        Except.ok (_create_alarm_event st data.device_id alarm_type data.timestamp severity
          (alarmMessage value alarm_type))
      | (none, _) => Except.ok st

/-- The `for data in abnormal_data` loop of `check_and_process_alerts`
(lines 35-36) under Python exception semantics: an exception raised while
processing one reading propagates out of the loop, leaving the store as it
was at that point and the remaining readings unprocessed.  The second
component records the escaped exception, if any. -/
def scanLoop (st : AlarmStore) : List Reading → AlarmStore × Option String
  | [] => (st, none)
  | data :: rest =>
    match _process_abnormal_data st data with
    | Except.ok st1 => scanLoop st1 rest
    | Except.error e => (st, some e)

/-- `AlarmProcessor.check_and_process_alerts` (lines 16-39), applied to the
list of abnormal readings its query returned: the whole loop runs inside one
`try`, whose `except` catches any escaped exception, logs it and returns
normally. -/
def check_and_process_alerts (abnormal_data : List Reading) (st : AlarmStore) : AlarmStore :=
  (scanLoop st abnormal_data).1

/-- The UPDATE of `acknowledge_alarm` applied to one row. -/
def setStatus (a : Alarm) (status : String) : Alarm :=
  ⟨a.alarm_id, a.device_id, a.alarm_type, a.triggered_timestamp, a.severity_level,
   status, a.alarm_message⟩

/-- `AlarmProcessor.acknowledge_alarm` (lines 124-136): UPDATE
`acknowledgment_status` WHERE `alarm_id` matches, then return whether
`cursor.rowcount > 0`.  With the MySQL connector used by `database.py`,
`rowcount` of an UPDATE counts the rows actually *changed*, so rows whose
status already equals the requested one do not count. -/
def acknowledge_alarm (st : AlarmStore) (alarm_id : Nat) (status : String) : AlarmStore × Bool :=
  let row_count := (st.rows.filter fun a =>
    a.alarm_id == alarm_id && !(a.acknowledgment_status == status)).length
  (⟨st.rows.map (fun a => if a.alarm_id == alarm_id then setStatus a status else a),
    st.next_id⟩,
   decide (0 < row_count))

/-- `acknowledge_alarm` at its default argument `status="已处理"` (line 124). -/
def acknowledge_alarm_default (st : AlarmStore) (alarm_id : Nat) : AlarmStore × Bool :=
  acknowledge_alarm st alarm_id processedStatus

/-- One row of the `sensor_device` table (the columns the joins use). -/
structure SensorDevice where
  device_id : Nat
  station_id : Nat
  sensor_type_id : Nat
deriving DecidableEq

/-- One row of the `base_station` table (the columns the joins use). -/
structure BaseStation where
  station_id : Nat
  station_name : String
deriving DecidableEq

/-- One row of the `sensor_type` table (the columns the joins use). -/
structure SensorType where
  type_id : Nat
  type_name : String
deriving DecidableEq

/-- The database slice read by `get_unprocessed_alarms`: the alarm table and
the three metadata tables it joins. -/
structure Db where
  alarm_event : AlarmStore
  sensor_device : List SensorDevice
  base_station : List BaseStation
  sensor_type : List SensorType
deriving DecidableEq

/-- One result row of `get_unprocessed_alarms`: `ae.*` plus the selected
`s.station_id`, `s.station_name`, `st.type_name`. -/
structure JoinedAlarm where
  ae : Alarm
  station_id : Nat
  station_name : String
  type_name : String
deriving DecidableEq

/-- The inner joins of the `get_unprocessed_alarms` query (lines 110-112)
restricted to one `alarm_event` row: all combinations of a matching
`sensor_device`, `base_station` and `sensor_type` row. -/
def joinOne (devices : List SensorDevice) (stations : List BaseStation)
    (types : List SensorType) (ae : Alarm) : List JoinedAlarm :=
  (devices.filter fun sd => sd.device_id == ae.device_id).flatMap fun sd =>
    (stations.filter fun s => s.station_id == sd.station_id).flatMap fun s =>
      (types.filter fun st => st.type_id == sd.sensor_type_id).map fun st =>
        ⟨ae, s.station_id, s.station_name, st.type_name⟩

/-- The full join `alarm_event ⋈ sensor_device ⋈ base_station ⋈ sensor_type`
of the `get_unprocessed_alarms` query. -/
def joinedAlarms (db : Db) : List JoinedAlarm :=
  db.alarm_event.rows.flatMap (joinOne db.sensor_device db.base_station db.sensor_type)

/-- The CASE expression of the ORDER BY (lines 115-119): 高危 (high) ↦ 1,
中危 (medium) ↦ 2, 低危 (low) ↦ 3. -/
def sevRank : Severity → Nat
  | Severity.high => 1
  | Severity.medium => 2
  | Severity.low => 3

/-- The ORDER BY of `get_unprocessed_alarms` (lines 114-120): severity rank
ascending, then `triggered_timestamp` descending. -/
def alarmOrder (x y : JoinedAlarm) : Prop :=
  sevRank x.ae.severity_level < sevRank y.ae.severity_level ∨
    (sevRank x.ae.severity_level = sevRank y.ae.severity_level ∧
      y.ae.triggered_timestamp ≤ x.ae.triggered_timestamp)

instance : DecidableRel alarmOrder := fun x y => by
  unfold alarmOrder; infer_instance

instance : IsTotal JoinedAlarm alarmOrder :=
  ⟨by intro a b; unfold alarmOrder; omega⟩

instance : IsTrans JoinedAlarm alarmOrder :=
  ⟨by intro a b c; unfold alarmOrder; omega⟩

/-- `AlarmProcessor.get_unprocessed_alarms` (lines 105-122): join the four
tables, keep rows WHERE `acknowledgment_status = '未处理'`, and sort by the
ORDER BY key (a sort is all the SQL guarantees; ties are unspecified). -/
def get_unprocessed_alarms (db : Db) : List JoinedAlarm :=
  List.insertionSort alarmOrder
    ((joinedAlarms db).filter fun j => j.ae.acknowledgment_status == unprocessedStatus)

/-- Two alarm rows share the dedup key when they agree on
(device_id, triggered_timestamp). -/
def sameKey (a b : Alarm) : Prop :=
  a.device_id = b.device_id ∧ a.triggered_timestamp = b.triggered_timestamp

/-- The dedup invariant: at most one alarm row per
(device_id, triggered_timestamp) pair. -/
def dedupInv (st : AlarmStore) : Prop :=
  st.rows.Pairwise fun a b => ¬ sameKey a b

/-- A small concrete database used by witness theorems: three alarms for
device 10 (two unprocessed, one processed) with matching metadata rows. -/
def sampleDb : Db :=
  ⟨⟨[⟨1, 10, AlarmType.aboveThreshold 60, 100, Severity.medium, "未处理", "m"⟩,
     ⟨2, 10, AlarmType.aboveThreshold 60, 200, Severity.high, "未处理", "m"⟩,
     ⟨3, 10, AlarmType.aboveThreshold 60, 150, Severity.high, "已处理", "m"⟩], 4⟩,
   [⟨10, 5, 1⟩], [⟨5, "station5"⟩], [⟨1, "temperature"⟩]⟩

/-! ## Helper lemmas about the evaluator -/

/-- When neither bound is strictly violated the initial values
`alarm_type = None`, `severity = 低危` survive. -/
theorem decideAlarm_none (thr : ThresholdEntry) (v : ℚ)
    (hhigh : ∀ b, thr.high = some b → v ≤ b)
    (hlow : ∀ b, thr.low = some b → b ≤ v) :
    decideAlarm thr v = (none, Severity.low) := by
  have hl : decideLow thr.low v = (none, Severity.low) := by
    cases hb : thr.low with
    | none => simp [decideLow]
    | some b => simp only [decideLow]; rw [if_neg (not_lt.mpr (hlow b hb))]
  cases hh : thr.high with
  | none => simp only [decideAlarm, hh]; exact hl
  | some h =>
    simp only [decideAlarm, hh]
    rw [if_neg (not_lt.mpr (hhigh h hh))]
    exact hl

/-- Whenever the evaluator determines an alarm type, the accompanying
severity is 高危 or 中危, never the initial 低危. -/
theorem decideAlarm_some_severity (thr : ThresholdEntry) (v : ℚ) (t : AlarmType)
    (sev : Severity) (h : decideAlarm thr v = (some t, sev)) :
    sev = Severity.medium ∨ sev = Severity.high := by
  have hl : ∀ l : Option ℚ, decideLow l v = (some t, sev) →
      sev = Severity.medium ∨ sev = Severity.high := by
    intro l hd
    cases l with
    | none => simp [decideLow] at hd
    | some b =>
      simp only [decideLow] at hd
      by_cases hb : v < b
      · rw [if_pos hb] at hd
        by_cases hb8 : v < b * 0.8
        · rw [if_pos hb8] at hd
          exact Or.inr (Prod.mk.injEq .. ▸ hd).2.symm
        · rw [if_neg hb8] at hd
          exact Or.inl (Prod.mk.injEq .. ▸ hd).2.symm
      · rw [if_neg hb] at hd
        simp at hd
  cases hh : thr.high with
  | none =>
    simp only [decideAlarm, hh] at h
    exact hl _ h
  | some b =>
    simp only [decideAlarm, hh] at h
    by_cases hb : v > b
    · rw [if_pos hb] at h
      by_cases hb2 : v > b * 1.2
      · rw [if_pos hb2] at h
        exact Or.inr (Prod.mk.injEq .. ▸ h).2.symm
      · rw [if_neg hb2] at h
        exact Or.inl (Prod.mk.injEq .. ▸ h).2.symm
    · rw [if_neg hb] at h
      exact hl _ h

/-! ## Helper lemmas about `_process_abnormal_data` -/

/-- Processing a reading whose store already holds an alarm with the same
(device_id, triggered_timestamp) key skips it, leaving the store unchanged. -/
theorem process_dedup_skip (st : AlarmStore) (r : Reading) (v : ℚ)
    (hv : floatOf r.measured_value = Except.ok v)
    (hex : ∃ a ∈ st.rows, a.device_id = r.device_id ∧ a.triggered_timestamp = r.timestamp) :
    _process_abnormal_data st r = Except.ok st := by
  obtain ⟨a, ha, h1, h2⟩ := hex
  have hmem : a ∈ st.rows.filter fun b =>
      b.device_id == r.device_id && b.triggered_timestamp == r.timestamp := by
    simp [List.mem_filter, ha, h1, h2]
  simp only [_process_abnormal_data, hv]
  rw [if_pos (List.length_pos_of_mem hmem)]

/-- Processing a reading on which the evaluator reaches no decision leaves
the store unchanged, whatever its dedup state. -/
theorem process_no_decision (st : AlarmStore) (r : Reading) (v : ℚ) (sev : Severity)
    (hv : floatOf r.measured_value = Except.ok v)
    (hdec : decideAlarm (thresholdsFor r.sensor_type_id) v = (none, sev)) :
    _process_abnormal_data st r = Except.ok st := by
  simp only [_process_abnormal_data, hv, hdec]
  split <;> rfl

/-- Inversion for a successful `_process_abnormal_data` run: either the
reading was dedup-skipped, or the evaluator made no decision, or exactly one
new alarm row keyed by the reading was appended. -/
theorem process_ok_inv (st : AlarmStore) (r : Reading) (st' : AlarmStore)
    (h : _process_abnormal_data st r = Except.ok st') :
    ∃ v, floatOf r.measured_value = Except.ok v ∧
      ((st' = st ∧ ∃ a ∈ st.rows, a.device_id = r.device_id ∧
          a.triggered_timestamp = r.timestamp) ∨
       (st' = st ∧ ∃ sev, decideAlarm (thresholdsFor r.sensor_type_id) v = (none, sev)) ∨
       (∃ t sev, decideAlarm (thresholdsFor r.sensor_type_id) v = (some t, sev) ∧
         (∀ a ∈ st.rows, ¬(a.device_id = r.device_id ∧
           a.triggered_timestamp = r.timestamp)) ∧
         st' = _create_alarm_event st r.device_id t r.timestamp sev (alarmMessage v t))) := by
  unfold _process_abnormal_data at h
  cases hv : floatOf r.measured_value with
  | error e => rw [hv] at h; exact absurd h (by simp)
  | ok v =>
    rw [hv] at h
    simp only at h
    refine ⟨v, rfl, ?_⟩
    by_cases hlen : 0 < (st.rows.filter fun b =>
        b.device_id == r.device_id && b.triggered_timestamp == r.timestamp).length
    · rw [if_pos hlen] at h
      have hsteq := Except.ok.inj h
      left
      refine ⟨hsteq.symm, ?_⟩
      obtain ⟨a, ha⟩ := List.exists_mem_of_length_pos hlen
      have := List.mem_filter.mp ha
      exact ⟨a, this.1, by simpa using this.2⟩
    · rw [if_neg hlen] at h
      have hnil : ∀ a ∈ st.rows, ¬(a.device_id = r.device_id ∧
          a.triggered_timestamp = r.timestamp) := by
        intro a ha hk
        exact hlen (List.length_pos_of_mem (List.mem_filter.mpr ⟨ha, by simp [hk.1, hk.2]⟩))
      cases hdec : decideAlarm (thresholdsFor r.sensor_type_id) v with
      | mk fst sev =>
        cases fst with
        | some t =>
          rw [hdec] at h
          simp only at h
          exact Or.inr (Or.inr ⟨t, sev, rfl, hnil, (Except.ok.inj h).symm⟩)
        | none =>
          rw [hdec] at h
          simp only at h
          exact Or.inr (Or.inl ⟨(Except.ok.inj h).symm, sev, rfl⟩)

/-- A failing `_process_abnormal_data` run is exactly a failing value
conversion; it depends only on the reading, not on the store. -/
theorem process_error_inv (st : AlarmStore) (r : Reading) (e : String)
    (h : _process_abnormal_data st r = Except.error e) :
    floatOf r.measured_value = Except.error e := by
  unfold _process_abnormal_data at h
  cases hv : floatOf r.measured_value with
  | error e1 =>
    rw [hv] at h
    simpa using h
  | ok v =>
    rw [hv] at h
    simp only at h
    split at h
    · exact absurd h (by simp)
    · split at h <;> exact absurd h (by simp)

/-- Processing never removes rows. -/
theorem process_mono (st : AlarmStore) (r : Reading) (st' : AlarmStore)
    (h : _process_abnormal_data st r = Except.ok st') :
    ∀ a ∈ st.rows, a ∈ st'.rows := by
  obtain ⟨v, hv, hc⟩ := process_ok_inv st r st' h
  rcases hc with ⟨rfl, -⟩ | ⟨rfl, -⟩ | ⟨t, sev, -, -, rfl⟩
  · exact fun a ha => ha
  · exact fun a ha => ha
  · exact fun a ha => List.mem_append_left _ ha

/-- Once a reading has been successfully processed, re-processing it against
any store that contains all resulting rows is a no-op. -/
theorem process_stable (st : AlarmStore) (r : Reading) (st' st2 : AlarmStore)
    (h : _process_abnormal_data st r = Except.ok st')
    (hsub : ∀ a ∈ st'.rows, a ∈ st2.rows) :
    _process_abnormal_data st2 r = Except.ok st2 := by
  obtain ⟨v, hv, hc⟩ := process_ok_inv st r st' h
  rcases hc with ⟨rfl, a, ha, hk⟩ | ⟨rfl, sev, hdec⟩ | ⟨t, sev, hdec, -, rfl⟩
  · exact process_dedup_skip st2 r v hv ⟨a, hsub a ha, hk⟩
  · exact process_no_decision st2 r v sev hv hdec
  · refine process_dedup_skip st2 r v hv ?_
    refine ⟨⟨st.next_id, r.device_id, t, r.timestamp, sev, unprocessedStatus,
      alarmMessage v t⟩, hsub _ ?_, rfl, rfl⟩
    exact List.mem_append_right _ (List.mem_singleton_self _)

/-! ## Helper lemmas about the scan loop -/

/-- The scan loop never removes rows. -/
theorem scanLoop_mono (rs : List Reading) :
    ∀ st : AlarmStore, ∀ a ∈ st.rows, a ∈ ((scanLoop st rs).1).rows := by
  induction rs with
  | nil => intro st a ha; simpa [scanLoop] using ha
  | cons r rest ih =>
    intro st a ha
    cases hp : _process_abnormal_data st r with
    | ok st1 => simpa [scanLoop, hp] using ih st1 a (process_mono st r st1 hp a ha)
    | error e => simpa [scanLoop, hp] using ha

/-- Running the scan loop a second time from the state (and outcome) of the
first run reproduces that state and outcome exactly. -/
theorem scanLoop_idem (rs : List Reading) :
    ∀ st : AlarmStore, scanLoop ((scanLoop st rs).1) rs = scanLoop st rs := by
  induction rs with
  | nil => intro st; rfl
  | cons r rest ih =>
    intro st
    cases hp : _process_abnormal_data st r with
    | error e =>
      have h1 : scanLoop st (r :: rest) = (st, some e) := by simp [scanLoop, hp]
      rw [h1]
      exact h1
    | ok st1 =>
      have h1 : scanLoop st (r :: rest) = scanLoop st1 rest := by simp [scanLoop, hp]
      rw [h1]
      have hstab : _process_abnormal_data ((scanLoop st1 rest).1) r =
          Except.ok ((scanLoop st1 rest).1) :=
        process_stable st r st1 ((scanLoop st1 rest).1) hp (scanLoop_mono rest st1)
      calc scanLoop ((scanLoop st1 rest).1) (r :: rest)
          = scanLoop ((scanLoop st1 rest).1) rest := by simp [scanLoop, hstab]
        _ = scanLoop st1 rest := ih st1

/-- Every row added by one processing step carries severity 中危 or 高危. -/
theorem process_new_severity (st : AlarmStore) (r : Reading) (st' : AlarmStore)
    (h : _process_abnormal_data st r = Except.ok st') :
    ∀ a ∈ st'.rows, a ∈ st.rows ∨
      a.severity_level = Severity.medium ∨ a.severity_level = Severity.high := by
  obtain ⟨v, hv, hc⟩ := process_ok_inv st r st' h
  rcases hc with ⟨rfl, -⟩ | ⟨rfl, -⟩ | ⟨t, sev, hdec, -, rfl⟩
  · exact fun a ha => Or.inl ha
  · exact fun a ha => Or.inl ha
  · intro a ha
    rcases List.mem_append.mp ha with h1 | h2
    · exact Or.inl h1
    · rw [List.mem_singleton] at h2
      subst h2
      exact Or.inr (decideAlarm_some_severity _ v t sev hdec)

/-- Every row added by a whole scan carries severity 中危 or 高危. -/
theorem scanLoop_new_severity (rs : List Reading) :
    ∀ st : AlarmStore, ∀ a ∈ ((scanLoop st rs).1).rows, a ∈ st.rows ∨
      a.severity_level = Severity.medium ∨ a.severity_level = Severity.high := by
  induction rs with
  | nil => intro st a ha; exact Or.inl (by simpa [scanLoop] using ha)
  | cons r rest ih =>
    intro st a ha
    cases hp : _process_abnormal_data st r with
    | error e => exact Or.inl (by simpa [scanLoop, hp] using ha)
    | ok st1 =>
      rw [show scanLoop st (r :: rest) = scanLoop st1 rest by simp [scanLoop, hp]] at ha
      rcases ih st1 a ha with h1 | h1
      · exact process_new_severity st r st1 hp a h1
      · exact Or.inr h1

/-- One processing step preserves the dedup invariant. -/
theorem process_dedupInv (st : AlarmStore) (r : Reading) (st' : AlarmStore)
    (h : _process_abnormal_data st r = Except.ok st') (hinv : dedupInv st) :
    dedupInv st' := by
  obtain ⟨v, hv, hc⟩ := process_ok_inv st r st' h
  rcases hc with ⟨rfl, -⟩ | ⟨rfl, -⟩ | ⟨t, sev, hdec, hnone, rfl⟩
  · exact hinv
  · exact hinv
  · unfold dedupInv _create_alarm_event
    rw [List.pairwise_append]
    refine ⟨hinv, List.pairwise_singleton _ _, ?_⟩
    intro a ha b hb
    rw [List.mem_singleton] at hb
    subst hb
    intro hk
    exact hnone a ha ⟨hk.1, hk.2⟩

/-- A whole scan preserves the dedup invariant. -/
theorem scanLoop_dedupInv (rs : List Reading) :
    ∀ st : AlarmStore, dedupInv st → dedupInv ((scanLoop st rs).1) := by
  induction rs with
  | nil => intro st h; simpa [scanLoop] using h
  | cons r rest ih =>
    intro st h
    cases hp : _process_abnormal_data st r with
    | error e => simpa [scanLoop, hp] using h
    | ok st1 =>
      rw [show scanLoop st (r :: rest) = scanLoop st1 rest by simp [scanLoop, hp]]
      exact ih st1 (process_dedupInv st r st1 hp h)

/-! ## Claim theorems: the evaluator -/

/-- C2: for a reading whose sensor type defines a high bound, a value
strictly above it yields the high-threshold-violation decision, with
severity 高危 (high) when `value > high * 1.2` and 中危 (medium) when
`value ≤ high * 1.2`. -/
theorem highBound_severity (thr : ThresholdEntry) (h v : ℚ)
    (hh : thr.high = some h) (hv : h < v) :
    (h * 1.2 < v →
      decideAlarm thr v = (some (AlarmType.aboveThreshold h), Severity.high)) ∧
    (v ≤ h * 1.2 →
      decideAlarm thr v = (some (AlarmType.aboveThreshold h), Severity.medium)) := by
  refine ⟨fun hx => ?_, fun hx => ?_⟩
  · simp only [decideAlarm, hh]
    rw [if_pos hv, if_pos hx]
  · simp only [decideAlarm, hh]
    rw [if_pos hv, if_neg (not_lt.mpr hx)]

/-- Witness for C2 on sensor type 1 (high = 60): value 65 gives severity
medium, values 75 and 80 give severity high. -/
theorem highBound_severity_witness :
    ((thresholdsFor 1).high = some 60 ∧ (60 : ℚ) < 65 ∧ (65 : ℚ) ≤ 60 * 1.2 ∧
      decideAlarm (thresholdsFor 1) 65 =
        (some (AlarmType.aboveThreshold 60), Severity.medium)) ∧
    ((60 : ℚ) * 1.2 < 75 ∧
      decideAlarm (thresholdsFor 1) 75 =
        (some (AlarmType.aboveThreshold 60), Severity.high)) ∧
    ((60 : ℚ) * 1.2 < 80 ∧
      decideAlarm (thresholdsFor 1) 80 =
        (some (AlarmType.aboveThreshold 60), Severity.high)) := by
  have ht : (thresholdsFor 1).high = some 60 := by
    simp [thresholdsFor, alarm_thresholds]
  refine ⟨⟨ht, by norm_num, by norm_num, ?_⟩, ⟨by norm_num, ?_⟩, ⟨by norm_num, ?_⟩⟩
  · exact (highBound_severity (thresholdsFor 1) 60 65 ht (by norm_num)).2 (by norm_num)
  · exact (highBound_severity (thresholdsFor 1) 60 75 ht (by norm_num)).1 (by norm_num)
  · exact (highBound_severity (thresholdsFor 1) 60 80 ht (by norm_num)).1 (by norm_num)

/-- C3: the low-bound check runs only when the high bound is absent or not
exceeded; a value strictly below the low bound yields the
low-threshold-violation decision, with severity 高危 (high) when
`value < low * 0.8` and 中危 (medium) otherwise. -/
theorem lowBound_severity (thr : ThresholdEntry) (l v : ℚ)
    (hl : thr.low = some l) (hhigh : ∀ b, thr.high = some b → v ≤ b) (hv : v < l) :
    (v < l * 0.8 →
      decideAlarm thr v = (some (AlarmType.belowThreshold l), Severity.high)) ∧
    (l * 0.8 ≤ v →
      decideAlarm thr v = (some (AlarmType.belowThreshold l), Severity.medium)) := by
  have hlow :
      (v < l * 0.8 → decideLow thr.low v = (some (AlarmType.belowThreshold l), Severity.high)) ∧
      (l * 0.8 ≤ v → decideLow thr.low v = (some (AlarmType.belowThreshold l), Severity.medium)) := by
    refine ⟨fun hx => ?_, fun hx => ?_⟩
    · simp only [decideLow, hl]
      rw [if_pos hv, if_pos hx]
    · simp only [decideLow, hl]
      rw [if_pos hv, if_neg (not_lt.mpr hx)]
  cases hh : thr.high with
  | none => simp only [decideAlarm, hh]; exact hlow
  | some b =>
    simp only [decideAlarm, hh]
    rw [if_neg (not_lt.mpr (hhigh b hh))]
    exact hlow

/-- Witness for C3 on sensor type 2 (high = 8, low = 1): value 0.5 is below
the low bound and below 1 * 0.8, so severity is high. -/
theorem lowBound_severity_witness :
    (thresholdsFor 2).low = some 1 ∧ (0.5 : ℚ) < 1 ∧ (0.5 : ℚ) < 1 * 0.8 ∧
    decideAlarm (thresholdsFor 2) 0.5 =
      (some (AlarmType.belowThreshold 1), Severity.high) := by
  have ht : (thresholdsFor 2).low = some 1 := by
    simp [thresholdsFor, alarm_thresholds]
  refine ⟨ht, by norm_num, by norm_num, ?_⟩
  refine (lowBound_severity (thresholdsFor 2) 1 0.5 ht ?_ (by norm_num)).1 (by norm_num)
  intro b hb
  have : (thresholdsFor 2).high = some 8 := by
    simp [thresholdsFor, alarm_thresholds]
  rw [this] at hb
  cases hb
  norm_num

/-- C4: a reading whose sensor type has no threshold entry, or whose value
lies weakly inside the configured bounds (the comparisons are strict, so a
value exactly at a bound does not alarm), yields no decision and the scan
leaves the alarm store unchanged. -/
theorem no_threshold_or_inRange_no_alarm (st : AlarmStore) (r : Reading) (v : ℚ)
    (hv : floatOf r.measured_value = Except.ok v)
    (hcase : alarm_thresholds.find? (fun p => p.1 == r.sensor_type_id) = none ∨
      ((∀ b, (thresholdsFor r.sensor_type_id).high = some b → v ≤ b) ∧
       (∀ b, (thresholdsFor r.sensor_type_id).low = some b → b ≤ v))) :
    decideAlarm (thresholdsFor r.sensor_type_id) v = (none, Severity.low) ∧
    _process_abnormal_data st r = Except.ok st := by
  have hbounds : (∀ b, (thresholdsFor r.sensor_type_id).high = some b → v ≤ b) ∧
      (∀ b, (thresholdsFor r.sensor_type_id).low = some b → b ≤ v) := by
    rcases hcase with hfind | hb
    · have : thresholdsFor r.sensor_type_id = ⟨none, none⟩ := by
        simp [thresholdsFor, hfind]
      rw [this]
      refine ⟨fun b hb => ?_, fun b hb => ?_⟩ <;> cases hb
    · exact hb
  have hdec := decideAlarm_none (thresholdsFor r.sensor_type_id) v hbounds.1 hbounds.2
  exact ⟨hdec, process_no_decision st r v Severity.low hv hdec⟩

/-- Witness for C4: sensor type 99 has no threshold entry, and a type-1
reading with value exactly 60 (the high bound) is in range; neither alarms
and neither changes the store. -/
theorem no_threshold_or_inRange_no_alarm_witness :
    alarm_thresholds.find? (fun p => p.1 == (99 : Nat)) = none ∧
    (decideAlarm (thresholdsFor 99) 1000 = (none, Severity.low) ∧
      _process_abnormal_data ⟨[], 1⟩ ⟨10, 99, RawValue.num 1000, 5⟩ =
        Except.ok ⟨[], 1⟩) ∧
    (decideAlarm (thresholdsFor 1) 60 = (none, Severity.low) ∧
      _process_abnormal_data ⟨[], 1⟩ ⟨10, 1, RawValue.num 60, 6⟩ =
        Except.ok ⟨[], 1⟩) := by
  have hfind : alarm_thresholds.find? (fun p => p.1 == (99 : Nat)) = none := by
    simp [alarm_thresholds]
  have ht1 : thresholdsFor 1 = ⟨some 60, some (-10)⟩ := by
    simp [thresholdsFor, alarm_thresholds]
  refine ⟨hfind, ?_, ?_⟩
  · exact no_threshold_or_inRange_no_alarm ⟨[], 1⟩ ⟨10, 99, RawValue.num 1000, 5⟩ 1000
      rfl (Or.inl hfind)
  · refine no_threshold_or_inRange_no_alarm ⟨[], 1⟩ ⟨10, 1, RawValue.num 60, 6⟩ 60
      rfl (Or.inr ⟨?_, ?_⟩)
    · intro b hb
      rw [ht1] at hb
      cases hb
      norm_num
    · intro b hb
      rw [ht1] at hb
      cases hb
      norm_num

/-! ## Claim theorems: dedup, idempotence, error handling -/

/-- C1: a reading whose (device_id, timestamp) key already has an alarm row
is skipped without inserting a second row, and a scan over any batch —
including batches with duplicate (device_id, timestamp) readings — preserves
the invariant that at most one alarm row exists per
(device_id, triggered_timestamp) pair. -/
theorem alarm_dedup (readings : List Reading) (st : AlarmStore) (hinv : dedupInv st) :
    dedupInv (check_and_process_alerts readings st) ∧
    ∀ r v, floatOf r.measured_value = Except.ok v →
      (∃ a ∈ st.rows, a.device_id = r.device_id ∧ a.triggered_timestamp = r.timestamp) →
      _process_abnormal_data st r = Except.ok st :=
  ⟨scanLoop_dedupInv readings st hinv,
   fun r v hv hex => process_dedup_skip st r v hv hex⟩

/-- Witness for C1: a store holding one alarm keyed (10, 100) satisfies the
invariant, and scanning a batch with two identical readings for that key
keeps it. -/
theorem alarm_dedup_witness :
    dedupInv ⟨[⟨1, 10, AlarmType.aboveThreshold 60, 100, Severity.high,
      "未处理", "m"⟩], 2⟩ ∧
    (dedupInv (check_and_process_alerts
        [⟨10, 1, RawValue.num 75, 100⟩, ⟨10, 1, RawValue.num 75, 100⟩]
        ⟨[⟨1, 10, AlarmType.aboveThreshold 60, 100, Severity.high, "未处理", "m"⟩], 2⟩) ∧
      ∀ r v, floatOf r.measured_value = Except.ok v →
        (∃ a ∈ (AlarmStore.mk [⟨1, 10, AlarmType.aboveThreshold 60, 100, Severity.high,
            "未处理", "m"⟩] 2).rows,
          a.device_id = r.device_id ∧ a.triggered_timestamp = r.timestamp) →
        _process_abnormal_data
          ⟨[⟨1, 10, AlarmType.aboveThreshold 60, 100, Severity.high, "未处理", "m"⟩], 2⟩ r =
          Except.ok ⟨[⟨1, 10, AlarmType.aboveThreshold 60, 100, Severity.high,
            "未处理", "m"⟩], 2⟩) := by
  have hinv : dedupInv ⟨[⟨1, 10, AlarmType.aboveThreshold 60, 100, Severity.high,
      "未处理", "m"⟩], 2⟩ := by
    simp [dedupInv]
  exact ⟨hinv, alarm_dedup _ _ hinv⟩

/-- C6: running the scan twice in succession over an unchanged reading set
leaves exactly the store that one run produces; the second run creates no
additional alarms. -/
theorem scan_idempotent (readings : List Reading) (st : AlarmStore) :
    check_and_process_alerts readings (check_and_process_alerts readings st) =
      check_and_process_alerts readings st := by
  unfold check_and_process_alerts
  rw [scanLoop_idem]

/-- C9: the severity tier 低危 (low) is never assigned to a created alarm:
the evaluator only ever decides 中危 or 高危, and every row a scan adds to
the store carries one of those two severities. -/
theorem severity_low_never_assigned :
    (∀ thr v t sev, decideAlarm thr v = (some t, sev) →
      sev = Severity.medium ∨ sev = Severity.high) ∧
    (∀ readings st, ∀ a ∈ (check_and_process_alerts readings st).rows,
      a ∉ st.rows → a.severity_level = Severity.medium ∨
        a.severity_level = Severity.high) := by
  refine ⟨fun thr v t sev h => decideAlarm_some_severity thr v t sev h, ?_⟩
  intro readings st a ha hna
  rcases scanLoop_new_severity readings st a ha with h | h
  · exact absurd h hna
  · exact h

/-- Witness for C9: the decision for a type-1 reading of value 75 carries an
alarm type, so by the theorem its severity is medium or high (it is high). -/
theorem severity_low_never_assigned_witness :
    decideAlarm (thresholdsFor 1) 75 =
      (some (AlarmType.aboveThreshold 60), Severity.high) ∧
    (Severity.high = Severity.medium ∨ Severity.high = Severity.high) := by
  have hdec : decideAlarm (thresholdsFor 1) 75 =
      (some (AlarmType.aboveThreshold 60), Severity.high) := by
    norm_num [decideAlarm, decideLow, thresholdsFor, alarm_thresholds]
  exact ⟨hdec,
    severity_low_never_assigned.1 (thresholdsFor 1) 75 (AlarmType.aboveThreshold 60)
      Severity.high hdec⟩

/-- C5 as the code behaves (amended): an exception raised while processing
one reading is caught and logged at the whole-scan level, so the scan
returns normally with the alarms created before the failing reading — but
the readings after it are not processed in that invocation. -/
theorem scan_error_aborts_batch (pre : List Reading) (r : Reading) (post : List Reading)
    (st : AlarmStore) (e : String)
    (hpre : (scanLoop st pre).2 = none)
    (herr : _process_abnormal_data ((scanLoop st pre).1) r = Except.error e) :
    check_and_process_alerts (pre ++ r :: post) st = (scanLoop st pre).1 := by
  unfold check_and_process_alerts
  induction pre generalizing st with
  | nil =>
    simp only [List.nil_append]
    have herr1 : _process_abnormal_data st r = Except.error e := herr
    simp [scanLoop, herr1]
  | cons p pre ih =>
    cases hp : _process_abnormal_data st p with
    | ok st1 =>
      have h1 : scanLoop st ((p :: pre) ++ r :: post) = scanLoop st1 (pre ++ r :: post) := by
        simp [scanLoop, hp]
      have h2 : scanLoop st (p :: pre) = scanLoop st1 pre := by
        simp [scanLoop, hp]
      rw [h2] at hpre herr
      rw [h1, h2]
      exact ih st1 hpre herr
    | error e1 =>
      rw [show scanLoop st (p :: pre) = (st, some e1) by simp [scanLoop, hp]] at hpre
      simp at hpre

/-- Counterexample to C5 as stated: with a malformed first reading, the
second reading of the batch — which on its own creates an alarm — is not
processed, so the loop does not proceed past a per-row failure. -/
theorem scan_error_counterexample :
    check_and_process_alerts
      [⟨11, 1, RawValue.malformed "abc", 101⟩, ⟨10, 1, RawValue.num 75, 100⟩]
      ⟨[], 1⟩ = ⟨[], 1⟩ ∧
    (check_and_process_alerts [⟨10, 1, RawValue.num 75, 100⟩] ⟨[], 1⟩).rows.length = 1 := by
  constructor <;>
    norm_num [check_and_process_alerts, scanLoop, _process_abnormal_data, floatOf,
      decideAlarm, decideLow, thresholdsFor, alarm_thresholds, _create_alarm_event]

/-- Witness for the amended C5: one good reading is processed, the malformed
second reading raises, and the third reading is never processed — the scan
returns the state reached after the first reading. -/
theorem scan_error_aborts_batch_witness :
    (scanLoop ⟨[], 1⟩ [⟨10, 1, RawValue.num 75, 100⟩]).2 = none ∧
    _process_abnormal_data ((scanLoop ⟨[], 1⟩ [⟨10, 1, RawValue.num 75, 100⟩]).1)
      ⟨11, 1, RawValue.malformed "abc", 101⟩ =
      Except.error "could not convert string to float: abc" ∧
    check_and_process_alerts
      ([⟨10, 1, RawValue.num 75, 100⟩] ++ ⟨11, 1, RawValue.malformed "abc", 101⟩ ::
        [⟨12, 1, RawValue.num 80, 102⟩]) ⟨[], 1⟩ =
      (scanLoop ⟨[], 1⟩ [⟨10, 1, RawValue.num 75, 100⟩]).1 := by
  have h1 : (scanLoop ⟨[], 1⟩ [⟨10, 1, RawValue.num 75, 100⟩]).2 = none := by
    norm_num [scanLoop, _process_abnormal_data, floatOf, decideAlarm, decideLow,
      thresholdsFor, alarm_thresholds, _create_alarm_event]
  have h2 : _process_abnormal_data ((scanLoop ⟨[], 1⟩ [⟨10, 1, RawValue.num 75, 100⟩]).1)
      ⟨11, 1, RawValue.malformed "abc", 101⟩ =
      Except.error "could not convert string to float: abc" := by
    norm_num [scanLoop, _process_abnormal_data, floatOf, decideAlarm, decideLow,
      thresholdsFor, alarm_thresholds, _create_alarm_event]
    rfl
  exact ⟨h1, h2, scan_error_aborts_batch _ _ _ _ _ h1 h2⟩

/-! ## Claim theorems: acknowledgment -/

/-- Mapping a function that fixes every member is the identity. -/
theorem map_id_of_mem {α : Type} (l : List α) (f : α → α) (h : ∀ a ∈ l, f a = a) :
    l.map f = l := by
  induction l with
  | nil => rfl
  | cons x xs ih =>
    simp only [List.map_cons]
    rw [h x (by simp), ih fun a ha => h a (by simp [ha])]

/-- Updating a row's status to the value it already has is the identity. -/
theorem setStatus_self (a : Alarm) (status : String)
    (h : a.acknowledgment_status = status) : setStatus a status = a := by
  cases a
  simp only [setStatus]
  simp_all

/-- C8: `acknowledge_alarm` (default status 已处理) rewrites the status of
the rows matching `alarm_id` and returns true exactly when some row actually
changed; for an absent `alarm_id` it returns false and changes nothing. -/
theorem acknowledge_alarm_spec (st : AlarmStore) (alarm_id : Nat) (status : String) :
    acknowledge_alarm_default st alarm_id = acknowledge_alarm st alarm_id processedStatus ∧
    ((acknowledge_alarm st alarm_id status).2 = true ↔
      ∃ a ∈ st.rows, a.alarm_id = alarm_id ∧ a.acknowledgment_status ≠ status) ∧
    (∀ a ∈ st.rows, a.alarm_id = alarm_id →
      setStatus a status ∈ (acknowledge_alarm st alarm_id status).1.rows) ∧
    (∀ a ∈ st.rows, a.alarm_id ≠ alarm_id →
      a ∈ (acknowledge_alarm st alarm_id status).1.rows) ∧
    ((∀ a ∈ st.rows, a.alarm_id ≠ alarm_id) →
      acknowledge_alarm st alarm_id status = (st, false)) := by
  refine ⟨rfl, ?_, ?_, ?_, ?_⟩
  · simp [acknowledge_alarm, List.length_pos, List.filter_eq_nil_iff]
  · intro a ha hid
    simp only [acknowledge_alarm]
    exact List.mem_map.mpr ⟨a, ha, by simp [hid]⟩
  · intro a ha hid
    simp only [acknowledge_alarm]
    exact List.mem_map.mpr ⟨a, ha, by simp [hid]⟩
  · intro hno
    obtain ⟨rows, nid⟩ := st
    have hmap : (rows.map fun a =>
        if a.alarm_id == alarm_id then setStatus a status else a) = rows :=
      map_id_of_mem rows _ fun a ha => by rw [if_neg (by simp [hno a ha])]
    have hfil : (rows.filter fun a =>
        a.alarm_id == alarm_id && !(a.acknowledgment_status == status)) = [] :=
      List.filter_eq_nil_iff.mpr fun a ha => by simp [hno a ha]
    simp only [acknowledge_alarm]
    rw [hmap, hfil]
    rfl

/-- Witness for C8, the spec's Scenario C: acknowledging alarm_id 999 in a
store that has no such row returns false and leaves the store unchanged. -/
theorem acknowledge_alarm_spec_witness :
    (∀ a ∈ (AlarmStore.mk [⟨1, 10, AlarmType.aboveThreshold 60, 100, Severity.high,
        "未处理", "m"⟩] 2).rows, a.alarm_id ≠ 999) ∧
    acknowledge_alarm ⟨[⟨1, 10, AlarmType.aboveThreshold 60, 100, Severity.high,
        "未处理", "m"⟩], 2⟩ 999 "已处理" =
      (⟨[⟨1, 10, AlarmType.aboveThreshold 60, 100, Severity.high, "未处理", "m"⟩], 2⟩,
        false) := by
  have hno : ∀ a ∈ (AlarmStore.mk [⟨1, 10, AlarmType.aboveThreshold 60, 100, Severity.high,
      "未处理", "m"⟩] 2).rows, a.alarm_id ≠ 999 := by
    intro a ha
    simp only [List.mem_singleton] at ha
    subst ha
    simp
  exact ⟨hno, (acknowledge_alarm_spec _ 999 "已处理").2.2.2.2 hno⟩

/-- C10: when every row matching `alarm_id` already carries the requested
status, the UPDATE changes zero rows, so `acknowledge_alarm` returns false
and leaves the store unchanged — at the interface this is indistinguishable
from a non-existent `alarm_id`, which also yields `(st, false)`. -/
theorem acknowledge_same_status_noop (st : AlarmStore) (alarm_id : Nat) (status : String)
    (hsame : ∀ a ∈ st.rows, a.alarm_id = alarm_id → a.acknowledgment_status = status) :
    acknowledge_alarm st alarm_id status = (st, false) := by
  obtain ⟨rows, nid⟩ := st
  have hmap : (rows.map fun a =>
      if a.alarm_id == alarm_id then setStatus a status else a) = rows := by
    refine map_id_of_mem rows _ fun a ha => ?_
    by_cases hid : a.alarm_id = alarm_id
    · rw [if_pos (by simp [hid])]
      exact setStatus_self a status (hsame a ha hid)
    · rw [if_neg (by simp [hid])]
  have hfil : (rows.filter fun a =>
      a.alarm_id == alarm_id && !(a.acknowledgment_status == status)) = [] := by
    refine List.filter_eq_nil_iff.mpr fun a ha => ?_
    by_cases hid : a.alarm_id = alarm_id
    · simp [hsame a ha hid]
    · simp [hid]
  simp only [acknowledge_alarm]
  rw [hmap, hfil]
  rfl

/-- Witness for C10: alarm_id 3 exists with status 已处理 already; asking to
set it to 已处理 again returns false with the store untouched. -/
theorem acknowledge_same_status_noop_witness :
    (∃ a ∈ (AlarmStore.mk [⟨3, 10, AlarmType.aboveThreshold 60, 100, Severity.high,
        "已处理", "m"⟩] 4).rows, a.alarm_id = 3) ∧
    acknowledge_alarm ⟨[⟨3, 10, AlarmType.aboveThreshold 60, 100, Severity.high,
        "已处理", "m"⟩], 4⟩ 3 "已处理" =
      (⟨[⟨3, 10, AlarmType.aboveThreshold 60, 100, Severity.high, "已处理", "m"⟩], 4⟩,
        false) := by
  refine ⟨⟨_, List.mem_singleton_self _, rfl⟩, ?_⟩
  refine acknowledge_same_status_noop _ 3 "已处理" fun a ha hid => ?_
  simp only [List.mem_singleton] at ha
  subst ha
  rfl

/-! ## Claim theorems: listing open alarms -/

/-- Every joined row produced for an alarm carries that alarm. -/
theorem joinOne_ae (d : List SensorDevice) (s : List BaseStation) (t : List SensorType)
    (a : Alarm) : ∀ j ∈ joinOne d s t a, j.ae = a := by
  intro j hj
  simp only [joinOne, List.mem_flatMap, List.mem_map, List.mem_filter] at hj
  obtain ⟨sd, -, s1, -, st1, -, rfl⟩ := hj
  rfl

/-- When every alarm joins to exactly one metadata combination, projecting
the filtered join back to its alarms gives exactly the filtered alarm
rows. -/
theorem joined_filter_map (d : List SensorDevice) (s : List BaseStation)
    (t : List SensorType) :
    ∀ rows : List Alarm, (∀ a ∈ rows, (joinOne d s t a).length = 1) →
      ((rows.flatMap (joinOne d s t)).filter (fun j =>
          j.ae.acknowledgment_status == unprocessedStatus)).map (fun j => j.ae) =
        rows.filter fun a => a.acknowledgment_status == unprocessedStatus := by
  intro rows
  induction rows with
  | nil => intro _; rfl
  | cons a rows ih =>
    intro h
    obtain ⟨j, hj⟩ := List.length_eq_one.mp (h a (by simp))
    have hae : j.ae = a := joinOne_ae d s t a j (by simp [hj])
    simp only [List.flatMap_cons, List.filter_append, List.map_append, hj]
    rw [ih fun b hb => h b (by simp [hb])]
    by_cases hstat : (a.acknowledgment_status == unprocessedStatus) = true
    · simp [List.filter_cons, hae, hstat]
    · simp [List.filter_cons, hae, hstat]

/-- C7: provided each alarm's device resolves to exactly one
device/station/type combination, `get_unprocessed_alarms` returns exactly
the alarms with status 未处理 (as a permutation of the filtered table), and
its output is ordered: severity rank never decreases, and within one rank
the triggered timestamps never increase (most recent first). -/
theorem open_alarms_ordering (db : Db)
    (hmeta : ∀ a ∈ db.alarm_event.rows,
      (joinOne db.sensor_device db.base_station db.sensor_type a).length = 1) :
    ((get_unprocessed_alarms db).map fun j => j.ae).Perm
      (db.alarm_event.rows.filter fun a =>
        a.acknowledgment_status == unprocessedStatus) ∧
    (get_unprocessed_alarms db).Pairwise fun x y =>
      sevRank x.ae.severity_level ≤ sevRank y.ae.severity_level ∧
        (sevRank x.ae.severity_level = sevRank y.ae.severity_level →
          y.ae.triggered_timestamp ≤ x.ae.triggered_timestamp) := by
  constructor
  · have hperm : (get_unprocessed_alarms db).Perm
        ((joinedAlarms db).filter fun j =>
          j.ae.acknowledgment_status == unprocessedStatus) :=
      List.perm_insertionSort _ _
    have hmapped := hperm.map fun j => j.ae
    have heq := joined_filter_map db.sensor_device db.base_station db.sensor_type
      db.alarm_event.rows hmeta
    simp only [joinedAlarms] at hmapped
    rw [heq] at hmapped
    exact hmapped
  · have hs : (get_unprocessed_alarms db).Pairwise alarmOrder :=
      List.sorted_insertionSort alarmOrder
        ((joinedAlarms db).filter fun j =>
          j.ae.acknowledgment_status == unprocessedStatus)
    refine List.Pairwise.imp ?_ hs
    intro x y hxy
    rcases hxy with h | ⟨heq, hts⟩
    · exact ⟨Nat.le_of_lt h, fun he => absurd he (Nat.ne_of_lt h)⟩
    · exact ⟨Nat.le_of_eq heq, fun _ => hts⟩

/-- Witness for C7 on `sampleDb`: the join hypothesis holds, and the listing
is a permutation of the two unprocessed alarms, ordered high before medium. -/
theorem open_alarms_ordering_witness :
    (∀ a ∈ sampleDb.alarm_event.rows,
      (joinOne sampleDb.sensor_device sampleDb.base_station sampleDb.sensor_type a).length
        = 1) ∧
    ((get_unprocessed_alarms sampleDb).map fun j => j.ae).Perm
      (sampleDb.alarm_event.rows.filter fun a =>
        a.acknowledgment_status == unprocessedStatus) ∧
    (get_unprocessed_alarms sampleDb).Pairwise fun x y =>
      sevRank x.ae.severity_level ≤ sevRank y.ae.severity_level ∧
        (sevRank x.ae.severity_level = sevRank y.ae.severity_level →
          y.ae.triggered_timestamp ≤ x.ae.triggered_timestamp) := by
  have hmeta : ∀ a ∈ sampleDb.alarm_event.rows,
      (joinOne sampleDb.sensor_device sampleDb.base_station sampleDb.sensor_type a).length
        = 1 := by
    decide
  exact ⟨hmeta, open_alarms_ordering sampleDb hmeta⟩

end OilGas
